import Mathlib

/-!
Shallow embedding of the agent orchestration engine in
`agent_orchestration_matrix.py` (module `lovelogicai_agent_os`), together
with theorems settling the specification claims about it.

Conventions of the embedding:
* Python floats are modelled as exact rationals (`ℚ`).
* Wall-clock timestamps (`datetime`) are modelled as naturals (`ℕ`);
  `datetime.max` becomes `⊤` in `WithTop ℕ`.
* Python dicts keyed by strings are association lists with in-place update
  (`dictInsert` replaces the value of an existing key, else appends),
  matching insertion-order iteration of Python dicts.
* Opaque payloads (`Any`) are modelled as `Option String`.
* Effects (current time, measured elapsed time, outcome of an abstract
  `execute_task` call) are passed as explicit parameters.
-/

namespace AOM

/-- `AgentState` enum of the source. -/
inductive AgentState where
  | idle
  | active
  | busy
  | error
  | maintenance
deriving DecidableEq

/-- `TaskPriority` enum of the source. -/
inductive TaskPriority where
  | low
  | medium
  | high
  | critical
  | emergency
deriving DecidableEq

/-- Numeric `value` of a `TaskPriority` (LOW = 1 … EMERGENCY = 5). -/
def TaskPriority.value : TaskPriority → ℕ
  | .low => 1
  | .medium => 2
  | .high => 3
  | .critical => 4
  | .emergency => 5

/-- `AgentCapability` dataclass of the source. -/
structure AgentCapability where
  name : String
  description : String
  inputTypes : List String
  outputTypes : List String
  confidenceScore : ℚ
  executionTimeEstimate : ℚ
  resourceRequirements : List (String × String)
deriving DecidableEq

/-- `Task` dataclass of the source. -/
structure Task where
  id : String
  description : String
  inputData : Option String
  requiredCapabilities : List String
  priority : TaskPriority
  deadline : Option ℕ
  context : List (String × String)
  dependencies : List String
  createdAt : ℕ
  userId : String
deriving DecidableEq

/-- `AgentResponse` dataclass of the source. -/
structure AgentResponse where
  agentId : String
  taskId : String
  success : Bool
  output : Option String
  confidence : ℚ
  executionTime : ℚ
  errorMessage : Option String
  metadata : List (String × String)
  timestamp : ℕ
deriving DecidableEq

/-- The `performance_metrics` dict a `BaseAgent` carries. -/
structure PerformanceMetrics where
  tasksCompleted : ℕ
  successRate : ℚ
  averageExecutionTime : ℚ
  lastActive : ℕ
deriving DecidableEq

/-- Initial `performance_metrics` as set in `BaseAgent.__init__`
(`tasks_completed = 0`, `success_rate = 1.0`,
`average_execution_time = 0.0`). -/
def initialMetrics (now : ℕ) : PerformanceMetrics :=
  { tasksCompleted := 0
    successRate := 1
    averageExecutionTime := 0
    lastActive := now }

/-- `AgentType` enum of the source. -/
inductive AgentType where
  | voice
  | vision
  | task
  | creative
  | analytical
  | social
  | security
  | workflow
  | custom
deriving DecidableEq

/-- The mutable state of a `BaseAgent` instance. -/
structure Agent where
  agentId : String
  agentType : AgentType
  capabilities : List AgentCapability
  state : AgentState
  currentTask : Option Task
  performanceMetrics : PerformanceMetrics
  loadFactor : ℚ
deriving DecidableEq

/-- `BaseAgent.update_performance_metrics`: bump `tasks_completed`, refresh
`last_active`, and fold the response into the running success-rate and
execution-time averages exactly as the source does. -/
def updatePerformanceMetrics (a : Agent) (response : AgentResponse) (now : ℕ) :
    Agent :=
  let totalTasks : ℕ := a.performanceMetrics.tasksCompleted + 1
  let currentSuccesses : ℚ :=
    a.performanceMetrics.successRate * ((totalTasks : ℚ) - 1)
  let newRate : ℚ :=
    if response.success then (currentSuccesses + 1) / (totalTasks : ℚ)
    else currentSuccesses / (totalTasks : ℚ)
  let currentAvg : ℚ := a.performanceMetrics.averageExecutionTime
  let newAvg : ℚ :=
    (currentAvg * ((totalTasks : ℚ) - 1) + response.executionTime) /
      (totalTasks : ℚ)
  { a with
      performanceMetrics :=
        { tasksCompleted := totalTasks
          successRate := newRate
          averageExecutionTime := newAvg
          lastActive := now } }

/-- Apply `update_performance_metrics` for a whole list of responses in
order (one call per completed task). -/
def applyResponses (a : Agent) (rs : List AgentResponse) (now : ℕ) : Agent :=
  rs.foldl (fun acc r => updatePerformanceMetrics acc r now) a

/-- Number of successful responses in a list. -/
def successCount (rs : List AgentResponse) : ℕ :=
  rs.countP (fun r => r.success)

/-- Sum of the execution times of a list of responses. -/
def totalExecutionTime (rs : List AgentResponse) : ℚ :=
  (rs.map (fun r => r.executionTime)).sum

/-- The capability list declared in `VoiceAgent.__init__`. -/
def voiceCapabilities : List AgentCapability :=
  [ { name := "speech_to_text"
      description := "Convert speech to text"
      inputTypes := ["audio"]
      outputTypes := ["text"]
      confidenceScore := 0.9
      executionTimeEstimate := 2.0
      resourceRequirements := [("memory", "low"), ("cpu", "medium")] }
  , { name := "text_to_speech"
      description := "Convert text to speech"
      inputTypes := ["text"]
      outputTypes := ["audio"]
      confidenceScore := 0.85
      executionTimeEstimate := 1.5
      resourceRequirements := [("memory", "low"), ("cpu", "medium")] }
  , { name := "voice_analysis"
      description := "Analyze voice for emotion and intent"
      inputTypes := ["audio"]
      outputTypes := ["analysis"]
      confidenceScore := 0.75
      executionTimeEstimate := 3.0
      resourceRequirements := [("memory", "medium"), ("cpu", "high")] } ]

/-- A freshly constructed `VoiceAgent` (identity `voice_agent_001`,
state Idle, no current task, initial metrics, zero load). -/
def voiceAgent (now : ℕ) : Agent :=
  { agentId := "voice_agent_001"
    agentType := .voice
    capabilities := voiceCapabilities
    state := .idle
    currentTask := none
    performanceMetrics := initialMetrics now
    loadFactor := 0 }

/-- `VoiceAgent.can_handle_task`: confidence 0.9 when the task requires any
of the three voice capabilities, otherwise 0.0. -/
def voiceCanHandleTask (task : Task) : ℚ :=
  let voiceCaps := ["speech_to_text", "text_to_speech", "voice_analysis"]
  if task.requiredCapabilities.any (fun c => voiceCaps.contains c) then 0.9
  else 0

/-- `VoiceAgent.execute_task`. The body first sets the agent Active with the
task as current, computes a response (the unsupported-capability branch
raises `ValueError`, caught by the `except` into a failure response), and the
`finally` block restores Idle, clears the current task and folds the response
into the metrics. `elapsed` stands for the measured `time.time() - start_time`
and `now` for `datetime.now()`. -/
def voiceExecuteTask (a : Agent) (task : Task) (elapsed : ℚ) (now : ℕ) :
    Agent × AgentResponse :=
  let a1 := { a with state := AgentState.active, currentTask := some task }
  let response : AgentResponse :=
    if task.requiredCapabilities.contains "speech_to_text" then
      { agentId := a1.agentId, taskId := task.id, success := true
        output := some "Transcribed speech content"
        confidence := 0.85, executionTime := elapsed, errorMessage := none
        metadata := [("agent_type", "voice")], timestamp := now }
    else if task.requiredCapabilities.contains "text_to_speech" then
      { agentId := a1.agentId, taskId := task.id, success := true
        output := some "/path/to/generated/audio.wav"
        confidence := 0.85, executionTime := elapsed, errorMessage := none
        metadata := [("agent_type", "voice")], timestamp := now }
    else if task.requiredCapabilities.contains "voice_analysis" then
      { agentId := a1.agentId, taskId := task.id, success := true
        output := some "voice analysis: neutral, question"
        confidence := 0.85, executionTime := elapsed, errorMessage := none
        metadata := [("agent_type", "voice")], timestamp := now }
    else
      let msg := "Unsupported capability: " ++
        String.intercalate ", " task.requiredCapabilities
      { agentId := a1.agentId, taskId := task.id, success := false
        output := none
        confidence := 0, executionTime := elapsed, errorMessage := some msg
        metadata := [("agent_type", "voice"), ("error", msg)], timestamp := now }
  let a2 := { a1 with state := AgentState.idle, currentTask := none }
  (updatePerformanceMetrics a2 response now, response)

/-! Python dicts as association lists -/

/-- `d[k] = v`: replace the value of an existing key in place, else append
(matching dict insertion-order semantics). -/
def dictInsert (d : List (String × α)) (k : String) (v : α) :
    List (String × α) :=
  if d.any (fun p => p.1 = k) then
    d.map (fun p => if p.1 = k then (k, v) else p)
  else d ++ [(k, v)]

/-- `d.get(k)` / `d[k]`: value of the first entry with key `k`. -/
def dictGet? (d : List (String × α)) (k : String) : Option α :=
  (d.find? (fun p => p.1 = k)).map (fun p => p.2)

/-- `k in d`. -/
def dictContains (d : List (String × α)) (k : String) : Bool :=
  d.any (fun p => p.1 = k)

/-- `del d[k]`: drop the entries with key `k`. -/
def dictErase (d : List (String × α)) (k : String) : List (String × α) :=
  d.filter (fun p => p.1 ≠ k)

/-! The orchestration matrix state -/

/-- The `orchestration_metrics` dict of `AgentOrchestrationMatrix`. -/
structure OrchestrationMetrics where
  totalTasks : ℕ
  successfulTasks : ℕ
  failedTasks : ℕ
  averageCompletionTime : ℚ
  agentUtilization : List (String × ℚ)
deriving DecidableEq

/-- Mutable state of an `AgentOrchestrationMatrix`. The `agents` dict is
kept as a list in registration (insertion) order; `is_running` and the
executor are part of the loop machinery and carried as a flag. -/
structure Orchestrator where
  agents : List Agent
  taskQueue : List Task
  activeTasks : List (String × Task)
  completedTasks : List (String × AgentResponse)
  orchestrationMetrics : OrchestrationMetrics
  isRunning : Bool
deriving DecidableEq

/-! Task-queue ordering -/

/-- The sort key `(t.priority.value, t.deadline or datetime.max)`; a missing
deadline becomes `⊤`. -/
def taskSortKey (t : Task) : ℕ × WithTop ℕ :=
  (t.priority.value, (t.deadline.map (fun d => (d : WithTop ℕ))).getD ⊤)

/-- The ordering realised by
`task_queue.sort(key=…, reverse=True)`: `x` comes before `y` when its key is
lexicographically ≥ (Python's sort is stable and `reverse=True` keeps equal
keys in original order). -/
def taskBefore (x y : Task) : Bool :=
  decide ((taskSortKey y).1 < (taskSortKey x).1) ||
    (decide ((taskSortKey x).1 = (taskSortKey y).1) &&
      decide ((taskSortKey y).2 ≤ (taskSortKey x).2))

/-- The queue after the in-place sort at the top of
`_process_task_queue`. -/
def sortTaskQueue (queue : List Task) : List Task :=
  queue.mergeSort taskBefore

/-! Agent selection -/

/-- The composite score of `_select_best_agent`:
`confidence * 0.5 + success_rate * 0.3 + (1 - load_factor) * 0.2`. -/
def compositeScore (confidence : ℚ) (a : Agent) : ℚ :=
  confidence * 0.5 + a.performanceMetrics.successRate * 0.3 +
    (1 - a.loadFactor) * 0.2

/-- The `agent_scores` list built by `_select_best_agent`: idle agents with
positive confidence for the task, paired with their composite score, in
registration order. `fit a` stands for `await a.can_handle_task(task)` for
the fixed task under consideration. -/
def agentScores (agents : List Agent) (fit : Agent → ℚ) :
    List (Agent × ℚ) :=
  agents.filterMap (fun a =>
    if a.state = AgentState.idle then
      let confidence := fit a
      if 0 < confidence then some (a, compositeScore confidence a) else none
    else none)

/-- `_select_best_agent`: `None` for an empty registry, else sort the score
list descending (stable) and take the top agent; `None` when no idle agent
has positive confidence. -/
def selectBestAgent (agents : List Agent) (fit : Agent → ℚ) : Option Agent :=
  if agents.isEmpty then none
  else
    match (agentScores agents fit).mergeSort
        (fun x y => decide (y.2 ≤ x.2)) with
    | [] => none
    | x :: _ => some x.1

/-! The dispatch pass

`_process_task_queue` sorts the queue in place, calls
`_assign_task_to_agent` for each task, and removes the assigned tasks.
During one pass no launched execution has started yet (the pass contains no
real suspension point, and `asyncio.create_task` only schedules the
coroutine), so the agent registry read by the selector is fixed for the
whole pass; the launched `(agent_id, task)` pairs are collected
explicitly. -/

/-- `_assign_task_to_agent`: select the best agent; on a match with an idle
agent, put the task in `active_tasks`, record the launched execution and
report success, else report failure and change nothing. -/
def assignTaskToAgent (agents : List Agent) (fit : Agent → Task → ℚ)
    (task : Task) (active launched : List (String × Task)) :
    Bool × List (String × Task) × List (String × Task) :=
  match selectBestAgent agents (fun a => fit a task) with
  | some best =>
      if best.state = AgentState.idle then
        (true, dictInsert active task.id task,
          launched ++ [(best.agentId, task)])
      else (false, active, launched)
  | none => (false, active, launched)

/-- One iteration of the assignment loop of `_process_task_queue`: try to
assign the task; on success append it to `tasks_to_remove`. -/
def passStep (agents : List Agent) (fit : Agent → Task → ℚ)
    (acc : List Task × List (String × Task) × List (String × Task))
    (task : Task) :
    List Task × List (String × Task) × List (String × Task) :=
  let (toRemove, act, lau) := acc
  let (ok, act2, lau2) := assignTaskToAgent agents fit task act lau
  (if ok then toRemove ++ [task] else toRemove, act2, lau2)

/-- `_process_task_queue`: early return on an empty queue; otherwise sort,
try to assign every task in sorted order collecting `tasks_to_remove`, then
remove each assigned task from the queue (`list.remove` = erase the first
occurrence). Returns the new queue, the new `active_tasks` and the list of
launched executions. -/
def processTaskQueue (agents : List Agent) (fit : Agent → Task → ℚ)
    (queue : List Task) (active : List (String × Task)) :
    List Task × List (String × Task) × List (String × Task) :=
  if queue.isEmpty then (queue, active, [])
  else
    let sorted := sortTaskQueue queue
    let step := sorted.foldl (passStep agents fit)
      (([] : List Task), active, ([] : List (String × Task)))
    (step.1.foldl (fun q t => q.erase t) sorted, step.2.1, step.2.2)

/-! Deadline monitoring and the dispatch boundary -/

/-- The synthetic timeout response built by `_monitor_active_tasks`. -/
def timeoutResponse (taskId : String) (now : ℕ) : AgentResponse :=
  { agentId := "orchestration_matrix", taskId := taskId, success := false
    output := none, confidence := 0, executionTime := 0
    errorMessage := some "Task exceeded deadline"
    metadata := [("timeout", "true")], timestamp := now }

/-- `_monitor_active_tasks`: sweep a snapshot of `active_tasks`; for each
task whose deadline lies strictly before `now`, record a synthetic timeout
response in `completed_tasks`, bump `failed_tasks` and delete the task from
`active_tasks`. -/
def monitorActiveTasks (m : Orchestrator) (now : ℕ) : Orchestrator :=
  m.activeTasks.foldl
    (fun m' p =>
      match p.2.deadline with
      | some d =>
          if d < now then
            { m' with
                completedTasks :=
                  dictInsert m'.completedTasks p.1 (timeoutResponse p.1 now)
                orchestrationMetrics :=
                  { m'.orchestrationMetrics with
                      failedTasks := m'.orchestrationMetrics.failedTasks + 1 }
                activeTasks := dictErase m'.activeTasks p.1 }
          else m'
      | none => m')
    m

/-- Increment `orchestration_metrics.agent_utilization[agent_id]`. -/
def bumpUtilization (u : List (String × ℚ)) (agentId : String) :
    List (String × ℚ) :=
  u.map (fun p => if p.1 = agentId then (p.1, p.2 + 1) else p)

/-- The orchestration-level error response built in the `except` branch of
`_execute_task_with_agent`. -/
def orchestrationErrorResponse (agentId taskId msg : String) (now : ℕ) :
    AgentResponse :=
  { agentId := agentId, taskId := taskId, success := false
    output := none, confidence := 0, executionTime := 0
    errorMessage := some msg
    metadata := [("orchestration_error", "true")], timestamp := now }

/-- `_execute_task_with_agent`: bump the agent's utilization, then either
store the response the agent's `execute_task` returned and count it as a
success or failure (`Except.ok`), or — when `execute_task` raised — store an
orchestration-error response and count a failure (`Except.error`); the
`finally` block removes the task from `active_tasks` in both cases. The
outcome of the abstract `await agent.execute_task(task)` is passed in as
`outcome`. The function only touches the orchestrator state: the agent
object itself is mutated (or not) by its own `execute_task`. -/
def executeTaskWithAgent (m : Orchestrator) (agent : Agent) (task : Task)
    (outcome : Except String AgentResponse) (now : ℕ) : Orchestrator :=
  let m1 := { m with
      orchestrationMetrics :=
        { m.orchestrationMetrics with
            agentUtilization :=
              bumpUtilization m.orchestrationMetrics.agentUtilization
                agent.agentId } }
  let m2 :=
    match outcome with
    | .ok response =>
        let m' := { m1 with
            completedTasks := dictInsert m1.completedTasks task.id response }
        if response.success then
          { m' with orchestrationMetrics :=
              { m'.orchestrationMetrics with
                  successfulTasks :=
                    m'.orchestrationMetrics.successfulTasks + 1 } }
        else
          { m' with orchestrationMetrics :=
              { m'.orchestrationMetrics with
                  failedTasks := m'.orchestrationMetrics.failedTasks + 1 } }
    | .error e =>
        let errorResponse :=
          orchestrationErrorResponse agent.agentId task.id e now
        { m1 with
            completedTasks :=
              dictInsert m1.completedTasks task.id errorResponse
            orchestrationMetrics :=
              { m1.orchestrationMetrics with
                  failedTasks := m1.orchestrationMetrics.failedTasks + 1 } }
  { m2 with activeTasks := dictErase m2.activeTasks task.id }

/-! Task status lookup -/

/-- Return value of `get_task_status`. -/
inductive TaskStatus where
  | completed (success : Bool) (output : Option String)
      (executionTime : ℚ) (agentId : String)
  | activeStatus (task : Task)
  | queued (position : ℕ)
  | notFound
deriving DecidableEq

/-- `get_task_status`: check `completed_tasks` first, then `active_tasks`,
then scan the queue (the reported position is `task_queue.index(task)`, the
index of the first equal element in the current queue), else `not_found`. -/
def getTaskStatus (m : Orchestrator) (taskId : String) : TaskStatus :=
  match dictGet? m.completedTasks taskId with
  | some response =>
      .completed response.success response.output response.executionTime
        response.agentId
  | none =>
      match dictGet? m.activeTasks taskId with
      | some task => .activeStatus task
      | none =>
          match m.taskQueue.find? (fun t => t.id = taskId) with
          | some task => .queued (m.taskQueue.indexOf task)
          | none => .notFound

/-! Running averages (claim C5) -/

theorem updatePerformanceMetrics_tasksCompleted (a : Agent)
    (r : AgentResponse) (now : ℕ) :
    (updatePerformanceMetrics a r now).performanceMetrics.tasksCompleted =
      a.performanceMetrics.tasksCompleted + 1 := rfl

theorem updatePerformanceMetrics_successRate_mul (a : Agent)
    (r : AgentResponse) (now : ℕ) :
    (updatePerformanceMetrics a r now).performanceMetrics.successRate *
        ((a.performanceMetrics.tasksCompleted : ℚ) + 1) =
      a.performanceMetrics.successRate *
          (a.performanceMetrics.tasksCompleted : ℚ) +
        (if r.success then 1 else 0) := by
  have hne : ((a.performanceMetrics.tasksCompleted : ℚ) + 1) ≠ 0 := by
    positivity
  simp only [updatePerformanceMetrics]
  push_cast
  split <;> field_simp

theorem updatePerformanceMetrics_average_mul (a : Agent)
    (r : AgentResponse) (now : ℕ) :
    (updatePerformanceMetrics a r now).performanceMetrics.averageExecutionTime
        * ((a.performanceMetrics.tasksCompleted : ℚ) + 1) =
      a.performanceMetrics.averageExecutionTime *
          (a.performanceMetrics.tasksCompleted : ℚ) +
        r.executionTime := by
  have hne : ((a.performanceMetrics.tasksCompleted : ℚ) + 1) ≠ 0 := by
    positivity
  simp only [updatePerformanceMetrics]
  push_cast
  field_simp

/-- Invariant of the incremental updates: the completed-task count grows by
the number of responses, and the running averages, multiplied by the final
count, track the accumulated success count and execution time. -/
theorem applyResponses_invariant (rs : List AgentResponse) (a : Agent)
    (now : ℕ) :
    (applyResponses a rs now).performanceMetrics.tasksCompleted =
        a.performanceMetrics.tasksCompleted + rs.length ∧
      (applyResponses a rs now).performanceMetrics.successRate *
          ((a.performanceMetrics.tasksCompleted : ℚ) + rs.length) =
        a.performanceMetrics.successRate *
            (a.performanceMetrics.tasksCompleted : ℚ) +
          (successCount rs : ℚ) ∧
      (applyResponses a rs now).performanceMetrics.averageExecutionTime *
          ((a.performanceMetrics.tasksCompleted : ℚ) + rs.length) =
        a.performanceMetrics.averageExecutionTime *
            (a.performanceMetrics.tasksCompleted : ℚ) +
          totalExecutionTime rs := by
  induction rs generalizing a with
  | nil => simp [applyResponses, successCount, totalExecutionTime]
  | cons r rs ih =>
      have step : applyResponses a (r :: rs) now =
          applyResponses (updatePerformanceMetrics a r now) rs now := rfl
      obtain ⟨ih1, ih2, ih3⟩ := ih (updatePerformanceMetrics a r now)
      rw [updatePerformanceMetrics_tasksCompleted] at ih1 ih2 ih3
      refine ⟨?_, ?_, ?_⟩
      · rw [step, ih1]; simp [List.length_cons]; omega
      · rw [step]
        have hcast : ((a.performanceMetrics.tasksCompleted + 1 : ℕ) : ℚ) =
            (a.performanceMetrics.tasksCompleted : ℚ) + 1 := by push_cast; ring
        rw [hcast] at ih2
        have hsum : ((a.performanceMetrics.tasksCompleted : ℚ) +
            (r :: rs).length) =
            ((a.performanceMetrics.tasksCompleted : ℚ) + 1) + rs.length := by
          simp only [List.length_cons]; push_cast; ring
        rw [hsum, ih2, updatePerformanceMetrics_successRate_mul]
        have hcount : (successCount (r :: rs) : ℚ) =
            (if r.success then 1 else 0) + (successCount rs : ℚ) := by
          simp only [successCount, List.countP_cons]
          split <;> push_cast <;> ring
        rw [hcount]; ring
      · rw [step]
        have hcast : ((a.performanceMetrics.tasksCompleted + 1 : ℕ) : ℚ) =
            (a.performanceMetrics.tasksCompleted : ℚ) + 1 := by push_cast; ring
        rw [hcast] at ih3
        have hsum : ((a.performanceMetrics.tasksCompleted : ℚ) +
            (r :: rs).length) =
            ((a.performanceMetrics.tasksCompleted : ℚ) + 1) + rs.length := by
          simp only [List.length_cons]; push_cast; ring
        rw [hsum, ih3, updatePerformanceMetrics_average_mul]
        have htime : totalExecutionTime (r :: rs) =
            r.executionTime + totalExecutionTime rs := by
          simp [totalExecutionTime]
        rw [htime]; ring

/-- Claim C5 (running-average correctness): for every worker that has not yet
completed a task — whatever its initial `success_rate` and
`average_execution_time` — after incrementally folding in a non-empty list
of completed results, the success rate equals the number of successes over
the number of results and the average execution time equals the arithmetic
mean of the execution times, so the initial values never influence the
result. -/
theorem c5_running_average (a : Agent)
    (h0 : a.performanceMetrics.tasksCompleted = 0)
    (rs : List AgentResponse) (hne : rs ≠ []) (now : ℕ) :
    (applyResponses a rs now).performanceMetrics.tasksCompleted = rs.length ∧
      (applyResponses a rs now).performanceMetrics.successRate =
        (successCount rs : ℚ) / (rs.length : ℚ) ∧
      (applyResponses a rs now).performanceMetrics.averageExecutionTime =
        totalExecutionTime rs / (rs.length : ℚ) := by
  obtain ⟨h1, h2, h3⟩ := applyResponses_invariant rs a now
  rw [h0] at h1 h2 h3
  push_cast at h2 h3
  rw [zero_add] at h1 h2 h3
  rw [mul_zero, zero_add] at h2 h3
  have hlen : ((rs.length : ℚ)) ≠ 0 := by
    have : rs.length ≠ 0 := by simpa using hne
    exact_mod_cast this
  exact ⟨h1, (eq_div_iff hlen).mpr h2, (eq_div_iff hlen).mpr h3⟩

/-- The three completed results of the spec example: execution durations
`[2.0, 4.0, 6.0]` with successes `[true, true, false]`. -/
def exampleResponses : List AgentResponse :=
  [ { agentId := "voice_agent_001", taskId := "t1", success := true
      output := none, confidence := 1, executionTime := 2
      errorMessage := none, metadata := [], timestamp := 0 }
  , { agentId := "voice_agent_001", taskId := "t2", success := true
      output := none, confidence := 1, executionTime := 4
      errorMessage := none, metadata := [], timestamp := 0 }
  , { agentId := "voice_agent_001", taskId := "t3", success := false
      output := none, confidence := 1, executionTime := 6
      errorMessage := none, metadata := [], timestamp := 0 } ]

/-- Witness for C5 at the spec's example: success rate `2/3` and average
execution time `4.0`. -/
theorem c5_running_average_witness :
    (voiceAgent 0).performanceMetrics.tasksCompleted = 0 ∧
      exampleResponses ≠ [] ∧
      (applyResponses (voiceAgent 0) exampleResponses
          0).performanceMetrics.successRate = 2 / 3 ∧
      (applyResponses (voiceAgent 0) exampleResponses
          0).performanceMetrics.averageExecutionTime = 4 := by
  have h := c5_running_average (voiceAgent 0) rfl exampleResponses
    (by simp [exampleResponses]) 0
  refine ⟨rfl, by simp [exampleResponses], ?_, ?_⟩
  · rw [h.2.1]; norm_num [exampleResponses, successCount]
  · rw [h.2.2]; norm_num [exampleResponses, totalExecutionTime]

/-- Claim C6 (worker execute restores state on every exit path): for every
task — whether the body produced a success response or the
unsupported-capability branch raised and the `except` produced a failure
response — after `VoiceAgent.execute_task` the agent is Idle, its current
task is cleared, and its metrics are those obtained by folding the produced
response into its previous metrics. -/
theorem c6_execute_restores_state (a : Agent) (task : Task) (elapsed : ℚ)
    (now : ℕ) :
    ((voiceExecuteTask a task elapsed now).1).state = AgentState.idle ∧
      ((voiceExecuteTask a task elapsed now).1).currentTask = none ∧
      ((voiceExecuteTask a task elapsed now).1).performanceMetrics =
        (updatePerformanceMetrics a ((voiceExecuteTask a task elapsed now).2)
          now).performanceMetrics :=
  ⟨rfl, rfl, rfl⟩

/-! Concrete evaluations of the dispatch pass (claims C1 and C2) -/

/-- Stable two-element merge sort evaluates to an if. -/
theorem mergeSort_pair {α : Type} (le : α → α → Bool) (x y : α) :
    [x, y].mergeSort le = if le x y then [x, y] else [y, x] := by
  rw [List.mergeSort]
  simp [List.splitInTwo, List.splitAt, List.splitAt.go, List.merge]

/-- A medium-priority speech-to-text task with a given id and deadline. -/
def mkTask (i : String) (d : Option ℕ) : Task :=
  { id := i, description := "task", inputData := none
    requiredCapabilities := ["speech_to_text"], priority := .medium
    deadline := d, context := [], dependencies := [], createdAt := 0
    userId := "u" }

/-- Claim C2 (queue ordering, actual behaviour): `reverse=True` applies to the
whole `(priority, deadline or datetime.max)` key, so among equal priorities
the task with the *later* deadline is placed first, and a task with *no*
deadline (key `datetime.max`) is placed first rather than last — the
opposite of the claimed secondary ordering. -/
theorem c2_sort_deadline_descending :
    sortTaskQueue [mkTask "a" (some 100), mkTask "b" (some 200)] =
        [mkTask "b" (some 200), mkTask "a" (some 100)] ∧
      sortTaskQueue [mkTask "a" (some 100), mkTask "c" none] =
        [mkTask "c" none, mkTask "a" (some 100)] := by
  constructor <;>
  · rw [sortTaskQueue, mergeSort_pair]
    norm_num [taskBefore, taskSortKey, mkTask, TaskPriority.value]

/-- Claim C1 (at-most-one-assignment, actual behaviour):
`_assign_task_to_agent` never marks the selected agent Active/Busy — the
state change happens only inside the launched execution, which cannot run
before the pass reaches a real suspension point. Hence with a single idle
voice agent and two queued speech-to-text tasks, one dispatch pass assigns
*both* tasks to the same agent: both enter `active_tasks` and two
executions are launched for `voice_agent_001`. -/
theorem c1_same_pass_double_assignment :
    processTaskQueue [voiceAgent 0] (fun _ t => voiceCanHandleTask t)
        [mkTask "t1" none, mkTask "t2" none] [] =
      ([],
        [("t1", mkTask "t1" none), ("t2", mkTask "t2" none)],
        [("voice_agent_001", mkTask "t1" none),
          ("voice_agent_001", mkTask "t2" none)]) := by
  have hsel : ∀ i d, selectBestAgent [voiceAgent 0]
      (fun _ => voiceCanHandleTask (mkTask i d)) = some (voiceAgent 0) := by
    intro i d
    norm_num [selectBestAgent, agentScores, voiceAgent, initialMetrics,
      voiceCanHandleTask, mkTask, compositeScore, List.filterMap_cons,
      List.mergeSort_singleton]
  have hsort : sortTaskQueue [mkTask "t1" none, mkTask "t2" none] =
      [mkTask "t1" none, mkTask "t2" none] := by
    rw [sortTaskQueue, mergeSort_pair]
    norm_num [taskBefore, taskSortKey, mkTask, TaskPriority.value]
  have hassign : ∀ i d active launched,
      assignTaskToAgent [voiceAgent 0] (fun _ t => voiceCanHandleTask t)
          (mkTask i d) active launched =
        (true, dictInsert active (mkTask i d).id (mkTask i d),
          launched ++ [("voice_agent_001", mkTask i d)]) := by
    intro i d active launched
    rw [assignTaskToAgent]
    simp only [hsel]
    norm_num [voiceAgent]
  rw [processTaskQueue]
  simp only [List.isEmpty_cons, Bool.false_eq_true, if_false, hsort,
    List.foldl_cons, List.foldl_nil, passStep, hassign]
  norm_num [dictInsert, mkTask]
  decide

/-! Dict lemmas -/

theorem dictGet?_cons_ne {α : Type} (p : String × α) (d : List (String × α))
    (k : String) (hp : ¬ p.1 = k) :
    dictGet? (p :: d) k = dictGet? d k := by
  simp [dictGet?, List.find?_cons, hp]

theorem dictInsert_cons_ne {α : Type} (p : String × α)
    (d : List (String × α)) (k : String) (v : α) (hp : ¬ p.1 = k) :
    dictInsert (p :: d) k v = p :: dictInsert d k v := by
  have hfalse : (decide (p.1 = k)) = false := by simpa using hp
  simp only [dictInsert, List.any_cons, hfalse, Bool.false_or]
  by_cases hd : d.any (fun q => q.1 = k) <;> simp [hd, hp]

theorem dictGet?_dictInsert_self {α : Type} (d : List (String × α))
    (k : String) (v : α) :
    dictGet? (dictInsert d k v) k = some v := by
  induction d with
  | nil => simp [dictInsert, dictGet?]
  | cons p d ih =>
      by_cases hp : p.1 = k
      · simp [dictInsert, dictGet?, hp]
      · rw [dictInsert_cons_ne p d k v hp, dictGet?_cons_ne p _ k hp]
        exact ih

theorem dictGet?_dictErase_self {α : Type} (d : List (String × α))
    (k : String) :
    dictGet? (dictErase d k) k = none := by
  have hfind : List.find? (fun p => decide (p.1 = k))
      (List.filter (fun p => decide (p.1 ≠ k)) d) = none := by
    rw [List.find?_eq_none]
    intro x hx
    simp only [List.mem_filter] at hx
    simpa using hx.2
  simp [dictGet?, dictErase, hfind]

/-! Dispatch-boundary and deadline-race scenarios (C3, C7, C9) -/

/-- Helper: storing a returned response writes it at the task id key of the
completed map unconditionally. -/
theorem executeTaskWithAgent_ok_completed (m : Orchestrator) (agent : Agent)
    (task : Task) (r : AgentResponse) (now : ℕ) :
    (executeTaskWithAgent m agent task (.ok r) now).completedTasks =
      dictInsert m.completedTasks task.id r := by
  simp only [executeTaskWithAgent]
  split <;> rfl

/-- Claim C3, amended: a late genuine Result is written over whatever the
completed map already holds for that task id — after the worker completion
is processed the recorded Result for the task is the worker's, so a
previously recorded synthetic timeout Result is overwritten
(last-writer-wins, not first-writer-wins). -/
theorem c3_late_result_overwrites (m : Orchestrator) (agent : Agent)
    (task : Task) (r : AgentResponse) (now : ℕ) :
    dictGet?
        ((executeTaskWithAgent m agent task (.ok r) now).completedTasks)
        task.id = some r := by
  rw [executeTaskWithAgent_ok_completed]
  exact dictGet?_dictInsert_self _ _ _

/-- The task of the deadline-race scenario: in flight with deadline 5. -/
def expiredTask : Task := mkTask "t1" (some 5)

/-- Orchestrator state with `expiredTask` in flight on the voice agent. -/
def expiredOrchestrator : Orchestrator :=
  { agents := [voiceAgent 0]
    taskQueue := []
    activeTasks := [("t1", expiredTask)]
    completedTasks := []
    orchestrationMetrics :=
      { totalTasks := 1, successfulTasks := 0, failedTasks := 0
        averageCompletionTime := 0
        agentUtilization := [("voice_agent_001", 0)] }
    isRunning := true }

/-- The genuine late result the voice agent produces for `expiredTask`. -/
def genuineResponse : AgentResponse :=
  { agentId := "voice_agent_001", taskId := "t1", success := true
    output := some "Transcribed speech content", confidence := 0.85
    executionTime := 1, errorMessage := none
    metadata := [("agent_type", "voice")], timestamp := 12 }

/-- Counterexample to claim C3 as stated: the deadline sweep records the
synthetic timeout Result for task `t1`, yet after the worker's own genuine
Result arrives the completed map holds the genuine Result, which differs
from the timeout Result. -/
theorem c3_timeout_overwritten_counterexample :
    dictGet? ((monitorActiveTasks expiredOrchestrator 10).completedTasks)
        "t1" = some (timeoutResponse "t1" 10) ∧
      dictGet?
          ((executeTaskWithAgent (monitorActiveTasks expiredOrchestrator 10)
              (voiceAgent 0) expiredTask (.ok genuineResponse)
              12).completedTasks) "t1" = some genuineResponse ∧
      genuineResponse ≠ timeoutResponse "t1" 10 := by
  have hmon : monitorActiveTasks expiredOrchestrator 10 =
      { agents := [voiceAgent 0]
        taskQueue := []
        activeTasks := []
        completedTasks := [("t1", timeoutResponse "t1" 10)]
        orchestrationMetrics :=
          { totalTasks := 1, successfulTasks := 0, failedTasks := 1
            averageCompletionTime := 0
            agentUtilization := [("voice_agent_001", 0)] }
        isRunning := true } := by
    norm_num [monitorActiveTasks, expiredOrchestrator, expiredTask, mkTask,
      dictInsert, dictErase]
  refine ⟨?_, ?_, ?_⟩
  · rw [hmon]; simp [dictGet?]
  · rw [hmon, executeTaskWithAgent_ok_completed]
    have : expiredTask.id = "t1" := rfl
    rw [this]
    exact dictGet?_dictInsert_self _ _ _
  · simp [genuineResponse, timeoutResponse]

/-- Claim C7, amended: when a worker's `execute_task` raises, the dispatch
boundary records an orchestration-error failure Result as the task's
completion, increments the failure counter, removes the task from the
in-flight set and returns normally (the loop keeps running); the agent
registry — and with it every worker's state — is left untouched, so the
worker ends Idle only if its own `execute_task` restored Idle before the
exception propagated. -/
theorem c7_dispatch_boundary_recovery (m : Orchestrator) (agent : Agent)
    (task : Task) (e : String) (now : ℕ) :
    dictGet?
        ((executeTaskWithAgent m agent task (.error e) now).completedTasks)
        task.id =
        some (orchestrationErrorResponse agent.agentId task.id e now) ∧
      (executeTaskWithAgent m agent task
            (.error e) now).orchestrationMetrics.failedTasks =
        m.orchestrationMetrics.failedTasks + 1 ∧
      dictGet? ((executeTaskWithAgent m agent task
            (.error e) now).activeTasks) task.id = none ∧
      (executeTaskWithAgent m agent task (.error e) now).agents = m.agents ∧
      (executeTaskWithAgent m agent task (.error e) now).isRunning =
        m.isRunning := by
  refine ⟨?_, rfl, ?_, rfl, rfl⟩
  · exact dictGet?_dictInsert_self _ _ _
  · exact dictGet?_dictErase_self _ _

/-- A voice agent as a raising `execute_task` can leave it: Active with the
task still attached (its `finally` never ran). -/
def activeVoiceAgent : Agent :=
  { voiceAgent 0 with
      state := AgentState.active, currentTask := some (mkTask "t1" none) }

/-- Orchestrator state at the moment such an exception propagates to the
dispatch boundary. -/
def raisedOrchestrator : Orchestrator :=
  { agents := [activeVoiceAgent]
    taskQueue := []
    activeTasks := [("t1", mkTask "t1" none)]
    completedTasks := []
    orchestrationMetrics :=
      { totalTasks := 1, successfulTasks := 0, failedTasks := 0
        averageCompletionTime := 0
        agentUtilization := [("voice_agent_001", 0)] }
    isRunning := true }

/-- Counterexample to claim C7 as stated: when the raising `execute_task`
left its agent Active, the dispatch-boundary handler leaves the worker in a
non-Idle state. -/
theorem c7_worker_left_active_counterexample :
    ((executeTaskWithAgent raisedOrchestrator activeVoiceAgent
          (mkTask "t1" none) (.error "boom") 0).agents.map
        (fun a => a.state)) = [AgentState.active] := by
  have hagents : (executeTaskWithAgent raisedOrchestrator activeVoiceAgent
      (mkTask "t1" none) (.error "boom") 0).agents = [activeVoiceAgent] := rfl
  rw [hagents]
  simp [activeVoiceAgent]

/-- Claim C9, amended: each processed completion increments the pair
`(successful_tasks, failed_tasks)` by one in total — but a timeout sweep and
the worker's own late Result are two separate completion events, so a task
whose deadline expires while its worker is still executing is counted
twice. -/
theorem c9_completion_counting (m : Orchestrator) (agent : Agent)
    (task : Task) (r : AgentResponse) (d now later : ℕ)
    (hactive : m.activeTasks = [(task.id, task)])
    (hdl : task.deadline = some d) (hexp : d < now) :
    ((executeTaskWithAgent m agent task
          (.ok r) later).orchestrationMetrics.successfulTasks +
        (executeTaskWithAgent m agent task
          (.ok r) later).orchestrationMetrics.failedTasks =
      m.orchestrationMetrics.successfulTasks +
        m.orchestrationMetrics.failedTasks + 1) ∧
      ((executeTaskWithAgent (monitorActiveTasks m now) agent task
            (.ok r) later).orchestrationMetrics.successfulTasks +
          (executeTaskWithAgent (monitorActiveTasks m now) agent task
            (.ok r) later).orchestrationMetrics.failedTasks =
        m.orchestrationMetrics.successfulTasks +
          m.orchestrationMetrics.failedTasks + 2) := by
  have hexec : ∀ m' : Orchestrator,
      (executeTaskWithAgent m' agent task
            (.ok r) later).orchestrationMetrics.successfulTasks +
        (executeTaskWithAgent m' agent task
            (.ok r) later).orchestrationMetrics.failedTasks =
      m'.orchestrationMetrics.successfulTasks +
        m'.orchestrationMetrics.failedTasks + 1 := by
    intro m'
    simp only [executeTaskWithAgent]
    split <;> simp <;> omega
  have hmon : (monitorActiveTasks m now).orchestrationMetrics.successfulTasks =
        m.orchestrationMetrics.successfulTasks ∧
      (monitorActiveTasks m now).orchestrationMetrics.failedTasks =
        m.orchestrationMetrics.failedTasks + 1 := by
    rw [monitorActiveTasks, hactive]
    simp [hdl, hexp]
  refine ⟨hexec m, ?_⟩
  rw [hexec (monitorActiveTasks m now), hmon.1, hmon.2]
  omega

/-- Witness for the amended claim C9 at the concrete deadline-race
scenario. -/
theorem c9_completion_counting_witness :
    expiredOrchestrator.activeTasks = [(expiredTask.id, expiredTask)] ∧
      expiredTask.deadline = some 5 ∧ 5 < 10 ∧
      ((executeTaskWithAgent (monitorActiveTasks expiredOrchestrator 10)
            (voiceAgent 0) expiredTask
            (.ok genuineResponse) 12).orchestrationMetrics.successfulTasks +
          (executeTaskWithAgent (monitorActiveTasks expiredOrchestrator 10)
            (voiceAgent 0) expiredTask
            (.ok genuineResponse) 12).orchestrationMetrics.failedTasks =
        expiredOrchestrator.orchestrationMetrics.successfulTasks +
          expiredOrchestrator.orchestrationMetrics.failedTasks + 2) := by
  refine ⟨rfl, rfl, by omega, ?_⟩
  exact (c9_completion_counting expiredOrchestrator (voiceAgent 0)
    expiredTask genuineResponse 5 10 12 rfl rfl (by omega)).2

/-- Counterexample to claim C9 as stated: starting from zero counters, the
timeout sweep followed by the worker's own Result increments the counter
pair twice for the single task `t1`. -/
theorem c9_double_count_counterexample :
    expiredOrchestrator.orchestrationMetrics.successfulTasks +
        expiredOrchestrator.orchestrationMetrics.failedTasks = 0 ∧
      (executeTaskWithAgent (monitorActiveTasks expiredOrchestrator 10)
            (voiceAgent 0) expiredTask
            (.ok genuineResponse) 12).orchestrationMetrics.successfulTasks +
        (executeTaskWithAgent (monitorActiveTasks expiredOrchestrator 10)
            (voiceAgent 0) expiredTask
            (.ok genuineResponse) 12).orchestrationMetrics.failedTasks = 2 := by
  constructor
  · rfl
  · have hmon : monitorActiveTasks expiredOrchestrator 10 =
        { agents := [voiceAgent 0]
          taskQueue := []
          activeTasks := []
          completedTasks := [("t1", timeoutResponse "t1" 10)]
          orchestrationMetrics :=
            { totalTasks := 1, successfulTasks := 0, failedTasks := 1
              averageCompletionTime := 0
              agentUtilization := [("voice_agent_001", 0)] }
          isRunning := true } := by
      norm_num [monitorActiveTasks, expiredOrchestrator, expiredTask, mkTask,
        dictInsert, dictErase]
    rw [hmon]
    simp [executeTaskWithAgent, genuineResponse]

/-! Selector refinement (claim C4) -/

/-- Earliest maximum by score: keep the current element unless a strictly
greater score appears further left... structural recursion from the left,
keeping the earlier element on ties. -/
def firstMaxRec {α : Type} : List (α × ℚ) → Option (α × ℚ)
  | [] => none
  | x :: l =>
      match firstMaxRec l with
      | none => some x
      | some m => if x.2 < m.2 then some m else some x

/-- The survivor list the spec describes (§4.3): workers in state Idle whose
fitness is positive, each paired with the composite score
`0.5 * fitness + 0.3 * success_rate + 0.2 * (1 - load_factor)`. -/
def specSurvivors (agents : List Agent) (fit : Agent → ℚ) :
    List (Agent × ℚ) :=
  (agents.filter (fun a =>
      decide (a.state = AgentState.idle) && decide (0 < fit a))).map
    (fun a => (a, compositeScore (fit a) a))

/-- The selector the spec describes: the survivor with the maximum composite
score, ties broken by earliest registration order; none when no survivor
exists. -/
def selectBestAgentSpec (agents : List Agent) (fit : Agent → ℚ) :
    Option Agent :=
  (firstMaxRec (specSurvivors agents fit)).map (fun p => p.1)

theorem specSurvivors_eq_agentScores (agents : List Agent)
    (fit : Agent → ℚ) :
    specSurvivors agents fit = agentScores agents fit := by
  induction agents with
  | nil => rfl
  | cons a l ih =>
      simp only [specSurvivors, agentScores, List.filter_cons,
        List.filterMap_cons] at ih ⊢
      by_cases h1 : a.state = AgentState.idle
      · by_cases h2 : 0 < fit a
        · simp [h1, h2, ih]
        · simp [h1, h2, ih]
      · simp [h1, ih]

/-- The downward-sorting relation used on the score list is transitive. -/
theorem scoreLe_trans {α : Type} (x y z : α × ℚ)
    (h1 : (fun x y : α × ℚ => decide (y.2 ≤ x.2)) x y = true)
    (h2 : (fun x y : α × ℚ => decide (y.2 ≤ x.2)) y z = true) :
    (fun x y : α × ℚ => decide (y.2 ≤ x.2)) x z = true := by
  simp only [decide_eq_true_eq] at h1 h2 ⊢
  exact h2.trans h1

/-- The downward-sorting relation used on the score list is total. -/
theorem scoreLe_total {α : Type} (x y : α × ℚ) :
    ((fun x y : α × ℚ => decide (y.2 ≤ x.2)) x y ||
      (fun x y : α × ℚ => decide (y.2 ≤ x.2)) y x) = true := by
  simp only [Bool.or_eq_true, decide_eq_true_eq]
  exact (le_total y.2 x.2)

/-- The head of the stable descending merge sort of a score list is its
earliest maximum. -/
theorem head?_mergeSort_eq_firstMaxRec {α : Type} (l : List (α × ℚ)) :
    (l.mergeSort (fun x y => decide (y.2 ≤ x.2))).head? = firstMaxRec l := by
  induction l with
  | nil => simp [firstMaxRec]
  | cons a l ih =>
      obtain ⟨l1, l2, h1, h2, h3⟩ :=
        List.mergeSort_cons scoreLe_trans scoreLe_total a l
      cases l1 with
      | nil =>
          simp only [List.nil_append] at h1 h2
          rw [h1]
          rw [h2] at ih
          have hsorted := List.sorted_mergeSort scoreLe_trans scoreLe_total
            (a :: l)
          rw [h1] at hsorted
          simp only [firstMaxRec]
          rw [← ih]
          cases hl2 : l2 with
          | nil => simp
          | cons m l2t =>
              simp only [hl2, List.head?_cons]
              have hm : (fun x y : α × ℚ => decide (y.2 ≤ x.2)) a m = true := by
                rw [hl2] at hsorted
                exact List.rel_of_pairwise_cons hsorted (List.mem_cons_self m l2t)
              simp only [decide_eq_true_eq] at hm
              have : ¬ a.2 < m.2 := not_lt.mpr hm
              simp [this]
      | cons b l1t =>
          rw [h1]
          rw [h2] at ih
          have hb : a.2 < b.2 := by
            have h := h3 b (List.mem_cons_self b l1t)
            simp only [Bool.not_eq_true', decide_eq_false_iff_not] at h
            exact not_le.mp h
          simp only [firstMaxRec]
          rw [← ih]
          simp only [List.cons_append, List.head?_cons]
          simp [hb]

/-- Claim C4 (selector correctness): `_select_best_agent` refines the
spec's selector — it considers only Idle workers, discards zero-fitness
workers, scores each survivor as
`0.5 * fitness + 0.3 * success_rate + 0.2 * (1 - load_factor)`, returns the
survivor with the maximum composite score with ties broken by earliest
registration order, and returns none when no survivor exists. -/
theorem c4_selector_refines_spec (agents : List Agent) (fit : Agent → ℚ) :
    selectBestAgent agents fit = selectBestAgentSpec agents fit := by
  rw [selectBestAgentSpec, specSurvivors_eq_agentScores]
  rw [← head?_mergeSort_eq_firstMaxRec]
  by_cases hempty : agents.isEmpty
  · have : agents = [] := by
      cases agents with
      | nil => rfl
      | cons x l => simp at hempty
    subst this
    simp [selectBestAgent, agentScores]
  · rw [selectBestAgent, if_neg hempty]
    cases hms : (agentScores agents fit).mergeSort
        (fun x y => decide (y.2 ≤ x.2)) with
    | nil => simp
    | cons x t => simp

/-! No-match persistence and atomic removal (claim C8) -/

/-- Whether `_assign_task_to_agent` succeeds for a task against a fixed
registry snapshot (no agent state changes during one pass): the selector
returns an agent and that agent is Idle. -/
def assignable (agents : List Agent) (fit : Agent → Task → ℚ)
    (task : Task) : Bool :=
  match selectBestAgent agents (fun a => fit a task) with
  | some best => best.state = AgentState.idle
  | none => false

theorem assignTaskToAgent_of_false (agents : List Agent)
    (fit : Agent → Task → ℚ) (task : Task)
    (act lau : List (String × Task))
    (h : assignable agents fit task = false) :
    assignTaskToAgent agents fit task act lau = (false, act, lau) := by
  rw [assignTaskToAgent]
  rw [assignable] at h
  cases hsel : selectBestAgent agents (fun a => fit a task) with
  | none => rfl
  | some best =>
      rw [hsel] at h
      simp only [decide_eq_false_iff_not] at h
      simp [h]

theorem assignTaskToAgent_of_true (agents : List Agent)
    (fit : Agent → Task → ℚ) (task : Task)
    (act lau : List (String × Task))
    (h : assignable agents fit task = true) :
    ∃ best, selectBestAgent agents (fun a => fit a task) = some best ∧
      assignTaskToAgent agents fit task act lau =
        (true, dictInsert act task.id task,
          lau ++ [(best.agentId, task)]) := by
  rw [assignable] at h
  cases hsel : selectBestAgent agents (fun a => fit a task) with
  | none => rw [hsel] at h; simp at h
  | some best =>
      rw [hsel] at h
      simp only [decide_eq_true_eq] at h
      exact ⟨best, rfl, by rw [assignTaskToAgent, hsel]; simp [h]⟩

theorem passFold_fst (agents : List Agent) (fit : Agent → Task → ℚ)
    (ts : List Task) (acc0 : List Task) (act lau : List (String × Task)) :
    (ts.foldl (passStep agents fit) (acc0, act, lau)).1 =
      acc0 ++ ts.filter (fun t => assignable agents fit t) := by
  induction ts generalizing acc0 act lau with
  | nil => simp
  | cons t ts ih =>
      rw [List.foldl_cons, List.filter_cons]
      cases h : assignable agents fit t with
      | false =>
          rw [show passStep agents fit (acc0, act, lau) t =
              (acc0, act, lau) by
            simp [passStep, assignTaskToAgent_of_false agents fit t act lau h]]
          rw [ih]
          simp
      | true =>
          obtain ⟨best, hsel, heq⟩ :=
            assignTaskToAgent_of_true agents fit t act lau h
          rw [show passStep agents fit (acc0, act, lau) t =
              (acc0 ++ [t], dictInsert act t.id t,
                lau ++ [(best.agentId, t)]) by simp [passStep, heq]]
          rw [ih]
          simp

theorem dictGet?_map_replace {α : Type} (d : List (String × α))
    (k k2 : String) (v : α) (h : ¬ k = k2) :
    dictGet? (d.map (fun p => if p.1 = k then (k, v) else p)) k2 =
      dictGet? d k2 := by
  induction d with
  | nil => rfl
  | cons p d ih =>
      by_cases hp : p.1 = k
      · simp only [List.map_cons, hp, if_true]
        rw [dictGet?_cons_ne (k, v) _ k2 h,
          dictGet?_cons_ne p _ k2 (by rw [hp]; exact h)]
        exact ih
      · simp only [List.map_cons, hp, if_false]
        by_cases hp2 : p.1 = k2
        · simp [dictGet?, hp2]
        · rw [dictGet?_cons_ne p _ k2 hp2, dictGet?_cons_ne p _ k2 hp2]
          exact ih

theorem dictGet?_append_single_ne {α : Type} (d : List (String × α))
    (k k2 : String) (v : α) (h : ¬ k = k2) :
    dictGet? (d ++ [(k, v)]) k2 = dictGet? d k2 := by
  induction d with
  | nil => simp [dictGet?, h]
  | cons p d ih =>
      by_cases hp : p.1 = k2
      · simp [dictGet?, hp]
      · rw [List.cons_append, dictGet?_cons_ne p _ k2 hp,
          dictGet?_cons_ne p _ k2 hp]
        exact ih

theorem dictGet?_dictInsert_ne {α : Type} (d : List (String × α))
    (k : String) (v : α) (k2 : String) (h : ¬ k = k2) :
    dictGet? (dictInsert d k v) k2 = dictGet? d k2 := by
  rw [dictInsert]
  split
  · exact dictGet?_map_replace d k k2 v h
  · exact dictGet?_append_single_ne d k k2 v h

theorem passFold_active_get (agents : List Agent) (fit : Agent → Task → ℚ)
    (ts : List Task) (acc0 : List Task) (act lau : List (String × Task))
    (k : String) (hact : dictGet? act k = none)
    (hts : ∀ u ∈ ts, u.id = k → assignable agents fit u = false) :
    dictGet? ((ts.foldl (passStep agents fit) (acc0, act, lau)).2.1) k =
      none := by
  induction ts generalizing acc0 act lau with
  | nil => simpa using hact
  | cons t ts ih =>
      rw [List.foldl_cons]
      cases h : assignable agents fit t with
      | false =>
          rw [show passStep agents fit (acc0, act, lau) t =
              (acc0, act, lau) by
            simp [passStep, assignTaskToAgent_of_false agents fit t act lau h]]
          exact ih acc0 act lau hact
            (fun u hu hk => hts u (List.mem_cons_of_mem t hu) hk)
      | true =>
          obtain ⟨best, hsel, heq⟩ :=
            assignTaskToAgent_of_true agents fit t act lau h
          rw [show passStep agents fit (acc0, act, lau) t =
              (acc0 ++ [t], dictInsert act t.id t,
                lau ++ [(best.agentId, t)]) by simp [passStep, heq]]
          have hne : ¬ t.id = k := by
            intro hk
            rw [hts t (List.mem_cons_self t ts) hk] at h
            exact Bool.false_ne_true h
          exact ih (acc0 ++ [t]) (dictInsert act t.id t)
            (lau ++ [(best.agentId, t)])
            (by rw [dictGet?_dictInsert_ne act t.id t k hne]; exact hact)
            (fun u hu hk => hts u (List.mem_cons_of_mem t hu) hk)

theorem foldl_erase_cons {α : Type} [DecidableEq α] (a : α) (l xs : List α)
    (h : ∀ x ∈ xs, x ≠ a) :
    List.foldl (fun q t => q.erase t) (a :: l) xs =
      a :: List.foldl (fun q t => q.erase t) l xs := by
  induction xs generalizing l with
  | nil => rfl
  | cons x xs ih =>
      have hne : ¬ (a == x) = true := by
        have := h x (List.mem_cons_self x xs)
        simp [this.symm]
      simp only [List.foldl_cons]
      rw [List.erase_cons_tail hne]
      exact ih _ (fun y hy => h y (List.mem_cons_of_mem x hy))

theorem foldl_erase_filter {α : Type} [DecidableEq α] (p : α → Bool)
    (l : List α) :
    List.foldl (fun q t => q.erase t) l (l.filter p) =
      l.filter (fun t => !(p t)) := by
  induction l with
  | nil => rfl
  | cons a l ih =>
      cases h : p a with
      | true =>
          rw [List.filter_cons_of_pos h, List.foldl_cons,
            List.erase_cons_head, ih, List.filter_cons_of_neg]
          simp [h]
      | false =>
          rw [List.filter_cons_of_neg (by simp [h]),
            foldl_erase_cons a l _ (fun x hx => by
              intro hxa
              have hpx := (List.mem_filter.mp hx).2
              rw [hxa, h] at hpx
              exact Bool.false_ne_true hpx), ih,
            List.filter_cons_of_pos (by simp [h])]

theorem processTaskQueue_fst (agents : List Agent) (fit : Agent → Task → ℚ)
    (queue : List Task) (active : List (String × Task)) :
    (processTaskQueue agents fit queue active).1 =
      (sortTaskQueue queue).filter (fun u => !(assignable agents fit u)) := by
  by_cases hq : queue.isEmpty
  · have hnil : queue = [] := by
      cases queue with
      | nil => rfl
      | cons x l => simp at hq
    subst hnil
    simp [processTaskQueue, sortTaskQueue]
  · rw [processTaskQueue, if_neg hq]
    simp only []
    rw [passFold_fst agents fit (sortTaskQueue queue) [] active []]
    rw [List.nil_append]
    exact foldl_erase_filter (fun t => assignable agents fit t)
      (sortTaskQueue queue)

theorem processTaskQueue_active_get (agents : List Agent)
    (fit : Agent → Task → ℚ) (queue : List Task)
    (active : List (String × Task)) (k : String)
    (hact : dictGet? active k = none)
    (hts : ∀ u ∈ queue, u.id = k → assignable agents fit u = false) :
    dictGet? ((processTaskQueue agents fit queue active).2.1) k = none := by
  by_cases hq : queue.isEmpty
  · rw [processTaskQueue, if_pos hq]
    exact hact
  · rw [processTaskQueue, if_neg hq]
    simp only []
    exact passFold_active_get agents fit (sortTaskQueue queue) [] active [] k
      hact (fun u hu => hts u (by
        rw [sortTaskQueue] at hu
        exact List.mem_mergeSort.mp hu))

/-- Claim C8 (no-match persistence and atomic removal): in one dispatch
pass the resulting queue is exactly the sorted queue minus the tasks that
were assigned (removal iff assignment); a task for which the selector
returns none stays in the queue and `get_task_status` reports it queued at
its index in the current queue. -/
theorem c8_no_match_persistence (m : Orchestrator) (fit : Agent → Task → ℚ)
    (t : Task) (hq : t ∈ m.taskQueue)
    (hnosel : selectBestAgent m.agents (fun a => fit a t) = none)
    (hcomp : dictGet? m.completedTasks t.id = none)
    (hact : dictGet? m.activeTasks t.id = none)
    (hids : ∀ u ∈ m.taskQueue, u.id = t.id → u = t) :
    (processTaskQueue m.agents fit m.taskQueue m.activeTasks).1 =
        (sortTaskQueue m.taskQueue).filter
          (fun u => !(assignable m.agents fit u)) ∧
      t ∈ (processTaskQueue m.agents fit m.taskQueue m.activeTasks).1 ∧
      ∃ pos,
        getTaskStatus
          { m with
              taskQueue :=
                (processTaskQueue m.agents fit m.taskQueue m.activeTasks).1
              activeTasks :=
                (processTaskQueue m.agents fit m.taskQueue
                  m.activeTasks).2.1 }
          t.id = TaskStatus.queued pos := by
  have hassign : assignable m.agents fit t = false := by
    rw [assignable, hnosel]
  have hfilter := processTaskQueue_fst m.agents fit m.taskQueue m.activeTasks
  have hts : ∀ u ∈ m.taskQueue, u.id = t.id →
      assignable m.agents fit u = false :=
    fun u hu hid => by rw [hids u hu hid]; exact hassign
  have hmem : t ∈ (processTaskQueue m.agents fit m.taskQueue
      m.activeTasks).1 := by
    rw [hfilter]
    refine List.mem_filter.mpr ⟨?_, by simp [hassign]⟩
    rw [sortTaskQueue]
    exact List.mem_mergeSort.mpr hq
  refine ⟨hfilter, hmem, ?_⟩
  have hactive : dictGet? ((processTaskQueue m.agents fit m.taskQueue
      m.activeTasks).2.1) t.id = none :=
    processTaskQueue_active_get m.agents fit m.taskQueue m.activeTasks t.id
      hact hts
  have hfindsome : ((processTaskQueue m.agents fit m.taskQueue
      m.activeTasks).1.find? (fun u => u.id = t.id)).isSome :=
    List.find?_isSome.mpr ⟨t, hmem, by simp⟩
  obtain ⟨u, hu⟩ := Option.isSome_iff_exists.mp hfindsome
  have hcomp2 : dictGet?
      ({ m with
          taskQueue :=
            (processTaskQueue m.agents fit m.taskQueue m.activeTasks).1
          activeTasks :=
            (processTaskQueue m.agents fit m.taskQueue m.activeTasks).2.1 } :
        Orchestrator).completedTasks t.id = none := hcomp
  have hact2 : dictGet?
      ({ m with
          taskQueue :=
            (processTaskQueue m.agents fit m.taskQueue m.activeTasks).1
          activeTasks :=
            (processTaskQueue m.agents fit m.taskQueue m.activeTasks).2.1 } :
        Orchestrator).activeTasks t.id = none := hactive
  refine ⟨((processTaskQueue m.agents fit m.taskQueue
      m.activeTasks).1.indexOf u), ?_⟩
  rw [getTaskStatus, hcomp2, hact2]
  have hfind2 : ({ m with
      taskQueue :=
        (processTaskQueue m.agents fit m.taskQueue m.activeTasks).1
      activeTasks :=
        (processTaskQueue m.agents fit m.taskQueue m.activeTasks).2.1 } :
    Orchestrator).taskQueue.find? (fun u => u.id = t.id) = some u := hu
  rw [hfind2]

/-- Orchestrator with an empty registry and one queued task nothing can
serve. -/
def lonelyOrchestrator : Orchestrator :=
  { agents := []
    taskQueue := [mkTask "t9" none]
    activeTasks := []
    completedTasks := []
    orchestrationMetrics :=
      { totalTasks := 1, successfulTasks := 0, failedTasks := 0
        averageCompletionTime := 0, agentUtilization := [] }
    isRunning := true }

/-- Witness for C8: with no registered worker the queued task survives the
pass and is still reported queued. -/
theorem c8_no_match_persistence_witness :
    (mkTask "t9" none) ∈
        (processTaskQueue lonelyOrchestrator.agents
          (fun _ u => voiceCanHandleTask u) lonelyOrchestrator.taskQueue
          lonelyOrchestrator.activeTasks).1 ∧
      ∃ pos,
        getTaskStatus
          { lonelyOrchestrator with
              taskQueue :=
                (processTaskQueue lonelyOrchestrator.agents
                  (fun _ u => voiceCanHandleTask u)
                  lonelyOrchestrator.taskQueue
                  lonelyOrchestrator.activeTasks).1
              activeTasks :=
                (processTaskQueue lonelyOrchestrator.agents
                  (fun _ u => voiceCanHandleTask u)
                  lonelyOrchestrator.taskQueue
                  lonelyOrchestrator.activeTasks).2.1 }
          (mkTask "t9" none).id = TaskStatus.queued pos := by
  have h := c8_no_match_persistence lonelyOrchestrator
    (fun _ u => voiceCanHandleTask u) (mkTask "t9" none)
    (by simp [lonelyOrchestrator]) rfl rfl rfl
    (by
      intro u hu hid
      simpa [lonelyOrchestrator] using hu)
  exact ⟨h.2.1, h.2.2⟩

/-! Status-lookup precedence (claim C10) -/

/-- Claim C10 (status-lookup precedence): `get_task_status` consults the
completed map first — so a completed id is reported completed even if the
same id is simultaneously in flight or queued — then the in-flight map,
then the queue, where the reported position is the index of the first
matching task in the current (most recently sorted) queue, and reports
not-found otherwise. -/
theorem c10_status_lookup_precedence (m : Orchestrator) (taskId : String) :
    (∀ r, dictGet? m.completedTasks taskId = some r →
        getTaskStatus m taskId =
          TaskStatus.completed r.success r.output r.executionTime
            r.agentId) ∧
      (dictGet? m.completedTasks taskId = none →
        ∀ t, dictGet? m.activeTasks taskId = some t →
          getTaskStatus m taskId = TaskStatus.activeStatus t) ∧
      (dictGet? m.completedTasks taskId = none →
        dictGet? m.activeTasks taskId = none →
        ∀ t, m.taskQueue.find? (fun u => u.id = taskId) = some t →
          getTaskStatus m taskId =
            TaskStatus.queued (m.taskQueue.indexOf t)) ∧
      (dictGet? m.completedTasks taskId = none →
        dictGet? m.activeTasks taskId = none →
        m.taskQueue.find? (fun u => u.id = taskId) = none →
        getTaskStatus m taskId = TaskStatus.notFound) := by
  refine ⟨?_, ?_, ?_, ?_⟩
  · intro r hr
    rw [getTaskStatus, hr]
  · intro h1 t h2
    rw [getTaskStatus, h1, h2]
  · intro h1 h2 t h3
    rw [getTaskStatus, h1, h2, h3]
  · intro h1 h2 h3
    rw [getTaskStatus, h1, h2, h3]

/-- Orchestrator in which the id `t1` is simultaneously completed, in
flight and queued, and `t0` is queued in second position. -/
def overlapOrchestrator : Orchestrator :=
  { agents := [voiceAgent 0]
    taskQueue := [mkTask "t1" none, mkTask "t0" none]
    activeTasks := [("t1", mkTask "t1" none)]
    completedTasks := [("t1", genuineResponse)]
    orchestrationMetrics :=
      { totalTasks := 2, successfulTasks := 1, failedTasks := 0
        averageCompletionTime := 0
        agentUtilization := [("voice_agent_001", 1)] }
    isRunning := true }

/-- Witness for C10: `t1` — though simultaneously in flight and queued — is
reported completed, and `t0` is reported queued at its index in the current
queue. -/
theorem c10_status_lookup_precedence_witness :
    dictGet? overlapOrchestrator.activeTasks "t1" =
        some (mkTask "t1" none) ∧
      overlapOrchestrator.taskQueue.find? (fun u => u.id = "t1") =
        some (mkTask "t1" none) ∧
      getTaskStatus overlapOrchestrator "t1" =
        TaskStatus.completed genuineResponse.success genuineResponse.output
          genuineResponse.executionTime genuineResponse.agentId ∧
      getTaskStatus overlapOrchestrator "t0" =
        TaskStatus.queued
          (overlapOrchestrator.taskQueue.indexOf (mkTask "t0" none)) := by
  refine ⟨rfl, by simp [overlapOrchestrator, mkTask], ?_, ?_⟩
  · exact (c10_status_lookup_precedence overlapOrchestrator "t1").1
      genuineResponse rfl
  · refine (c10_status_lookup_precedence overlapOrchestrator "t0").2.2.1
      rfl rfl (mkTask "t0" none) ?_
    simp [overlapOrchestrator, mkTask]

end AOM
